import Mathlib

/-!
Verification of the simplified evolution-generation pipeline.

Shallow embedding of `src/app_SDG_from_scratch_simplified.ipynb`
(class `EvolutionGenerator`).  The external text-generation port
(the `gpt` method, which catches every exception of the underlying
client and returns `None` in that case) is modelled as a function
`String → Option String` from the prompt to the response, `none`
standing for the failure signal.  Python strings are Lean `String`s
(lists of characters); the Python primitives `str.split()`,
`str.strip()`, `str.upper()` and `' '.join` are embedded explicitly
below (ASCII whitespace and case, which is what the code relies on).

Each pipeline method is embedded together with the exact sequence of
prompts it sends to the port (the second component of the returned
pair), so that claims about the number and order of port invocations
can be stated.  A Python exception escaping a method is modelled as
`Except.error` with the exception's description.
-/

set_option maxRecDepth 100000

namespace SDG

instance {ε α : Type} [DecidableEq ε] [DecidableEq α] : DecidableEq (Except ε α) :=
  fun x y =>
    match x, y with
    | Except.error a, Except.error b => decidable_of_iff (a = b) (by simp)
    | Except.error _, Except.ok _ => isFalse (by simp)
    | Except.ok _, Except.error _ => isFalse (by simp)
    | Except.ok a, Except.ok b => decidable_of_iff (a = b) (by simp)

/-- Python whitespace test used by `str.split`/`str.strip`
(ASCII: space, tab, newline, carriage return, vertical tab, form feed). -/
def pyIsSpace (c : Char) : Bool :=
  c == ' ' || c == '\t' || c == '\n' || c == '\r' || c == '\x0b' || c == '\x0c'

/-- Worker for `str.split()`: scans the character list, accumulating the
current word in reverse in `acc`, and emits maximal non-whitespace runs. -/
def splitWordsAux : List Char → List Char → List (List Char)
  | [], acc => if acc.isEmpty then [] else [acc.reverse]
  | c :: cs, acc =>
    if pyIsSpace c then
      (if acc.isEmpty then [] else [acc.reverse]) ++ splitWordsAux cs []
    else
      splitWordsAux cs (c :: acc)

/-- Python `doc.split()`: the whitespace-delimited word sequence of `doc`
(maximal non-whitespace runs; leading/trailing/repeated whitespace ignored). -/
def pyWords (doc : String) : List String :=
  (splitWordsAux doc.data []).map String.mk

/-- Python `s.strip()`: remove leading and trailing whitespace. -/
def pyStrip (s : String) : String :=
  String.mk (((s.data.dropWhile (pyIsSpace ·)).reverse.dropWhile (pyIsSpace ·)).reverse)

/-- Python `c.upper()` for one ASCII character. -/
def pyUpperChar (c : Char) : Char :=
  if 97 ≤ c.toNat ∧ c.toNat ≤ 122 then Char.ofNat (c.toNat - 32) else c

/-- Python `s.upper()` (ASCII). -/
def pyUpper (s : String) : String :=
  String.mk (s.data.map pyUpperChar)

/-- Python `' '.join l`: join with single spaces. -/
def joinSp : List String → String
  | [] => ""
  | [w] => w
  | w :: ws => w ++ " " ++ joinSp ws

/-- The Python pattern `if x: out.append(x.strip())` applied to the result
of a port call: a `None` or empty response contributes nothing (Python
truthiness), any other response contributes its stripped text. -/
def pyAppendIf : Option String → List String
  | none => []
  | some s => if s = "" then [] else [pyStrip s]

/-- The word windows `words[i:i+W]` for `i in range(0, len(words), W)`,
for `W ≥ 1`: Python's `range(0, n, W)` enumerates `0, W, 2W, …`, which is
`⌈n/W⌉ = (n + W - 1) / W` indices, and `words[i:i+W]` is
`(words.drop i).take W`.  The `W = 0` case, where Python's `range` raises
`ValueError`, is guarded at `chunk_document` and never reaches this
function. -/
def chunksOf (W : Nat) (l : List String) : List (List String) :=
  (List.range ((l.length + W - 1) / W)).map (fun k => (l.drop (k * W)).take W)

/-- `EvolutionGenerator.chunk_document`: split `doc` into word windows
of size `chunk_size` and join each window with single spaces.
`chunk_size = 0` makes Python's `range` raise `ValueError` (modelled as
`Except.error`); a negative `chunk_size` makes the `range` empty, so the
comprehension yields `[]` without raising. -/
def chunk_document (doc : String) (chunk_size : Int) : Except String (List String) :=
  if chunk_size = 0 then
    Except.error "ValueError: range() arg 3 must not be zero"
  else if chunk_size < 0 then
    Except.ok []
  else
    Except.ok ((chunksOf chunk_size.toNat (pyWords doc)).map joinSp)

/-- Prompt template of `generate_simple_questions`. -/
def simple_prompt (chunk : String) : String :=
  "Generate a simple factual question based on the following text:\n\n" ++ chunk

/-- Prompt template of the Complexity evolution. -/
def complexity_prompt (question : String) : String :=
  "Transform the following simple question into a more complex reasoning question that requires multi-step logic or inference:\n\n" ++ question

/-- Prompt template of the Compression evolution. -/
def compression_prompt (question : String) : String :=
  "Rewrite the following question to be more concise, while retaining the original meaning:\n\n" ++ question

/-- Prompt template of the Rephrasing evolution. -/
def rephrasing_prompt (question : String) : String :=
  "Rephrase the following question in a different way to ask the same information:\n\n" ++ question

/-- Critic prompt (the Python triple-quoted f-string, indentation included). -/
def critic_prompt (original_question evolved_question : String) : String :=
  "\n        Evaluate the following evolved question to determine if it is sufficiently different from the original question while conveying the same meaning.\n        Original Question: \"" ++ original_question ++ "\"\n        Evolved Question: \"" ++ evolved_question ++ "\"\n\n        Answer \"VALID\" if the evolved question meets both criteria. Answer \"INVALID\" if it fails either criterion.\n        "

/-- `EvolutionGenerator.generate_simple_questions`: one port call per chunk;
a truthy response is stripped and appended, a falsy one (None or `""`)
is skipped.  Second component: the prompts sent, in order. -/
def generate_simple_questions (gpt : String → Option String) :
    List String → List String × List String
  | [] => ([], [])
  | chunk :: rest =>
    let prompt := simple_prompt chunk
    let next := generate_simple_questions gpt rest
    (pyAppendIf (gpt prompt) ++ next.1, prompt :: next.2)

/-- `EvolutionGenerator.apply_evolutions`: three port calls, always in the
fixed order Complexity, Compression, Rephrase; each truthy response is
stripped and appended.  Second component: the prompts sent, in order. -/
def apply_evolutions (gpt : String → Option String) (question : String) :
    List String × List String :=
  let p1 := complexity_prompt question
  let p2 := compression_prompt question
  let p3 := rephrasing_prompt question
  (pyAppendIf (gpt p1) ++ pyAppendIf (gpt p2) ++ pyAppendIf (gpt p3), [p1, p2, p3])

/-- `EvolutionGenerator.critic`: one port call; the code then runs
`result.strip().upper() == "VALID"` unconditionally, so a `None` response
raises `AttributeError` (modelled as `Except.error`) instead of returning
a verdict.  Second component: the prompts sent. -/
def critic (gpt : String → Option String) (original_question evolved_question : String) :
    Except String Bool × List String :=
  let p := critic_prompt original_question evolved_question
  match gpt p with
  | none => (Except.error "AttributeError: NoneType has no attribute strip", [p])
  | some s => (Except.ok (pyUpper (pyStrip s) = "VALID"), [p])

/-- `EvolutionGenerator.generate_evolved_questions`: one `(question,
evolutions)` pair per input question, in order. -/
def generate_evolved_questions (gpt : String → Option String) :
    List String → List (String × List String) × List String
  | [] => ([], [])
  | q :: qs =>
    let e := apply_evolutions gpt q
    let rest := generate_evolved_questions gpt qs
    ((q, e.1) :: rest.1, e.2 ++ rest.2)

/-- Inner loop of `validate_evolved_questions` over one baseline's
evolutions: each candidate is judged by `critic` and kept iff the verdict
is true; an exception from `critic` propagates and stops the loop. -/
def validate_one (gpt : String → Option String) (original : String) :
    List String → Except String (List String) × List String
  | [] => (Except.ok [], [])
  | e :: es =>
    let c := critic gpt original e
    match c.1 with
    | Except.error msg => (Except.error msg, c.2)
    | Except.ok b =>
      let rest := validate_one gpt original es
      match rest.1 with
      | Except.error msg => (Except.error msg, c.2 ++ rest.2)
      | Except.ok l => (Except.ok (if b then e :: l else l), c.2 ++ rest.2)

/-- `EvolutionGenerator.validate_evolved_questions`: accepted candidates
of every baseline, concatenated in baseline order; an exception from
`critic` propagates and aborts. -/
def validate_evolved_questions (gpt : String → Option String) :
    List (String × List String) → Except String (List String) × List String
  | [] => (Except.ok [], [])
  | (q, es) :: rest =>
    let v := validate_one gpt q es
    match v.1 with
    | Except.error msg => (Except.error msg, v.2)
    | Except.ok accepted =>
      let r := validate_evolved_questions gpt rest
      match r.1 with
      | Except.error msg => (Except.error msg, v.2 ++ r.2)
      | Except.ok l => (Except.ok (accepted ++ l), v.2 ++ r.2)

/-- The verdict the critic records for a candidate, as a Bool: `true` iff
`critic` returns the verdict `true` (an exception from `critic` counts as
no recorded true verdict). -/
def criticOk (gpt : String → Option String) (original e : String) : Bool :=
  match (critic gpt original e).1 with
  | Except.ok b => b
  | Except.error _ => false

/-- The notebook's pipeline: chunk, synthesize, evolve, validate.
Second component: every prompt sent to the port over the whole run,
in order. -/
def run_pipeline (gpt : String → Option String) (document : String)
    (chunk_size : Int) : Except String (List String) × List String :=
  match chunk_document document chunk_size with
  | Except.error msg => (Except.error msg, [])
  | Except.ok chunks =>
    let sq := generate_simple_questions gpt chunks
    let ev := generate_evolved_questions gpt sq.1
    let va := validate_evolved_questions gpt ev.1
    (va.1, sq.2 ++ ev.2 ++ va.2)

/-- The fixture port of the end-to-end scenario: fixed responses per
prompt category for the document `"Alpha beta gamma delta"` with chunk
size 2 (baseline answers `"Q1?"`/`"Q2?"`; per-policy answers
`"C1?"`/`"Co1?"`/`"R1?"` and `"C2?"`/`"Co2?"`/`"R2?"`), and a critic
fixture accepting exactly the Compression and Rephrase outputs. -/
def fixturePort : String → Option String := fun p =>
  if p = simple_prompt "Alpha beta" then some "Q1?"
  else if p = simple_prompt "gamma delta" then some "Q2?"
  else if p = complexity_prompt "Q1?" then some "C1?"
  else if p = compression_prompt "Q1?" then some "Co1?"
  else if p = rephrasing_prompt "Q1?" then some "R1?"
  else if p = complexity_prompt "Q2?" then some "C2?"
  else if p = compression_prompt "Q2?" then some "Co2?"
  else if p = rephrasing_prompt "Q2?" then some "R2?"
  else if p = critic_prompt "Q1?" "Co1?" then some "VALID"
  else if p = critic_prompt "Q1?" "R1?" then some "VALID"
  else if p = critic_prompt "Q2?" "Co2?" then some "VALID"
  else if p = critic_prompt "Q2?" "R2?" then some "VALID"
  else if p = critic_prompt "Q1?" "C1?" then some "INVALID"
  else if p = critic_prompt "Q2?" "C2?" then some "INVALID"
  else none


/-! Chunking lemmas -/

theorem chunksOf_length (W : Nat) (l : List String) :
    (chunksOf W l).length = (l.length + W - 1) / W := by
  simp [chunksOf]

theorem chunksOf_getElem (W : Nat) (l : List String) (i : Nat)
    (h : i < (chunksOf W l).length) :
    (chunksOf W l)[i] = (l.drop (i * W)).take W := by
  simp [chunksOf] at h ⊢

theorem le_ceil_mul (n W : Nat) (hW : 0 < W) : n ≤ ((n + W - 1) / W) * W := by
  have h1 := Nat.div_add_mod (n + W - 1) W
  have h2 : (n + W - 1) % W < W := Nat.mod_lt _ hW
  have h3 : W * ((n + W - 1) / W) = ((n + W - 1) / W) * W := Nat.mul_comm _ _
  omega

theorem flatten_windows (W : Nat) (l : List String) (m : Nat) :
    ((List.range m).map (fun k => (l.drop (k * W)).take W)).flatten = l.take (m * W) := by
  induction m with
  | zero => simp
  | succ m ih =>
    rw [List.range_succ, List.map_append, List.flatten_append, ih]
    simp only [List.map_cons, List.map_nil, List.flatten_cons, List.flatten_nil,
      List.append_nil]
    rw [Nat.succ_mul, List.take_add]

theorem chunksOf_flatten (W : Nat) (l : List String) (hW : 0 < W) :
    (chunksOf W l).flatten = l := by
  rw [chunksOf, flatten_windows]
  apply List.take_of_length_le
  exact le_ceil_mul l.length W hW

theorem chunksOf_mem_size (W : Nat) (l : List String) (p : List String)
    (hp : p ∈ chunksOf W l) : p.length ≤ W := by
  rw [chunksOf, List.mem_map] at hp
  obtain ⟨k, _, rfl⟩ := hp
  simp [List.length_take]

theorem chunksOf_full_size (W : Nat) (l : List String) (hW : 0 < W) (i : Nat)
    (h : i < (chunksOf W l).length) (h2 : i + 1 < (chunksOf W l).length) :
    (chunksOf W l)[i].length = W := by
  rw [chunksOf_getElem]
  rw [chunksOf_length] at h2
  have ha : ((l.length + W - 1) / W) * W ≤ l.length + W - 1 := Nat.div_mul_le_self _ _
  have hb : (i + 2) * W ≤ ((l.length + W - 1) / W) * W :=
    Nat.mul_le_mul_right W (by omega)
  have hc : (i + 2) * W = i * W + 2 * W := by ring
  simp only [List.length_take, List.length_drop]
  omega

theorem chunksOf_mem_subset (W : Nat) (l : List String) (p : List String)
    (hp : p ∈ chunksOf W l) : ∀ x ∈ p, x ∈ l := by
  rw [chunksOf, List.mem_map] at hp
  obtain ⟨k, _, rfl⟩ := hp
  intro x hx
  exact List.mem_of_mem_drop (List.mem_of_mem_take hx)

theorem chunksOf_mem_ne_nil (W : Nat) (l : List String) (hW : 0 < W)
    (p : List String) (hp : p ∈ chunksOf W l) : p ≠ [] := by
  rw [chunksOf, List.mem_map] at hp
  obtain ⟨k, hk, rfl⟩ := hp
  rw [List.mem_range] at hk
  have ha : ((l.length + W - 1) / W) * W ≤ l.length + W - 1 := Nat.div_mul_le_self _ _
  have hb : (k + 1) * W ≤ ((l.length + W - 1) / W) * W :=
    Nat.mul_le_mul_right W (by omega)
  have hc : (k + 1) * W = k * W + W := by ring
  have hlt : k * W < l.length := by omega
  have hlen : 0 < ((l.drop (k * W)).take W).length := by
    simp only [List.length_take, List.length_drop]
    omega
  exact List.ne_nil_of_length_pos hlen

theorem chunksOf_nil (W : Nat) : chunksOf W [] = [] := by
  have h : (W - 1) / W = 0 := by
    cases W with
    | zero => rfl
    | succ n => exact Nat.div_eq_of_lt (by omega)
  simp [chunksOf, h]

/-! Space-join lemmas -/

theorem joinSp_cons_cons (w v : String) (ws : List String) :
    joinSp (w :: v :: ws) = w ++ " " ++ joinSp (v :: ws) := rfl

theorem joinSp_append (l1 l2 : List String) (h1 : l1 ≠ []) (h2 : l2 ≠ []) :
    joinSp (l1 ++ l2) = joinSp l1 ++ " " ++ joinSp l2 := by
  induction l1 with
  | nil => exact absurd rfl h1
  | cons w ws ih =>
    cases ws with
    | nil =>
      cases l2 with
      | nil => exact absurd rfl h2
      | cons v vs => simp [joinSp_cons_cons, joinSp]
    | cons v vs =>
      have hstep : (w :: v :: vs) ++ l2 = w :: ((v :: vs) ++ l2) := rfl
      rw [hstep, List.cons_append, joinSp_cons_cons, ← List.cons_append,
        ih (by simp), joinSp_cons_cons]
      simp [String.append_assoc]

theorem joinSp_map_flatten (parts : List (List String))
    (h : ∀ p ∈ parts, p ≠ []) :
    joinSp (parts.map joinSp) = joinSp parts.flatten := by
  induction parts with
  | nil => rfl
  | cons p ps ih =>
    cases ps with
    | nil => simp [joinSp]
    | cons q qs =>
      have hp : p ≠ [] := h p (by simp)
      have hq : q ≠ [] := h q (by simp)
      have hflat : (q :: qs).flatten ≠ [] := by
        intro hcon
        rw [List.flatten_cons, List.append_eq_nil] at hcon
        exact hq hcon.1
      rw [List.map_cons, List.map_cons, joinSp_cons_cons, ← List.map_cons,
        ih (fun r hr => h r (by simp [hr])),
        show (p :: q :: qs).flatten = p ++ (q :: qs).flatten from rfl,
        joinSp_append p _ hp hflat]

/-! Word-splitting round trip -/

theorem splitWordsAux_word_run (w : List Char) :
    ∀ (rest acc : List Char), (∀ c ∈ w, pyIsSpace c = false) →
    splitWordsAux (w ++ rest) acc = splitWordsAux rest (w.reverse ++ acc) := by
  induction w with
  | nil => intro rest acc _; rfl
  | cons c cs ih =>
    intro rest acc hw
    have hc : pyIsSpace c = false := hw c (by simp)
    rw [List.cons_append, splitWordsAux, if_neg (by simp [hc]),
      ih rest (c :: acc) (fun d hd => hw d (by simp [hd]))]
    simp [List.append_assoc]

theorem splitWordsAux_space (c : Char) (rest acc : List Char)
    (hc : pyIsSpace c = true) :
    splitWordsAux (c :: rest) acc =
      (if acc.isEmpty then [] else [acc.reverse]) ++ splitWordsAux rest [] := by
  rw [splitWordsAux, if_pos (by simp [hc])]

theorem splitWordsAux_sound (l : List Char) :
    ∀ (acc : List Char), (∀ c ∈ acc, pyIsSpace c = false) →
    ∀ w ∈ splitWordsAux l acc, w ≠ [] ∧ ∀ c ∈ w, pyIsSpace c = false := by
  induction l with
  | nil =>
    intro acc hacc w hw
    by_cases h : acc.isEmpty
    · simp [splitWordsAux, h] at hw
    · simp only [splitWordsAux, if_neg h, List.mem_singleton] at hw
      subst hw
      refine ⟨?_, fun c hc => hacc c (List.mem_reverse.mp hc)⟩
      simp only [List.isEmpty_iff] at h
      simpa using h
  | cons c cs ih =>
    intro acc hacc w hw
    by_cases hsp : pyIsSpace c
    · rw [splitWordsAux_space c cs acc hsp, List.mem_append] at hw
      rcases hw with h1 | h2
      · by_cases h : acc.isEmpty
        · simp [h] at h1
        · simp only [if_neg h, List.mem_singleton] at h1
          subst h1
          refine ⟨?_, fun d hd => hacc d (List.mem_reverse.mp hd)⟩
          simp only [List.isEmpty_iff] at h
          simpa using h
      · exact ih [] (by simp) w h2
    · rw [splitWordsAux, if_neg hsp] at hw
      refine ih (c :: acc) ?_ w hw
      intro d hd
      rcases List.mem_cons.mp hd with h | h
      · subst h; simpa using hsp
      · exact hacc d h

theorem pyWords_sound (doc : String) :
    ∀ w ∈ pyWords doc, w.data ≠ [] ∧ ∀ c ∈ w.data, pyIsSpace c = false := by
  intro w hw
  rw [pyWords, List.mem_map] at hw
  obtain ⟨wl, hwl, rfl⟩ := hw
  exact splitWordsAux_sound doc.data [] (by simp) wl hwl

theorem pyWords_joinSp (parts : List String)
    (h : ∀ w ∈ parts, w.data ≠ [] ∧ ∀ c ∈ w.data, pyIsSpace c = false) :
    pyWords (joinSp parts) = parts := by
  have key : ∀ ps : List String,
      (∀ w ∈ ps, w.data ≠ [] ∧ ∀ c ∈ w.data, pyIsSpace c = false) →
      splitWordsAux (joinSp ps).data [] = ps.map String.data := by
    intro ps
    induction ps with
    | nil => intro _; rfl
    | cons w ws ihw =>
      intro hps
      obtain ⟨hne, hns⟩ := hps w (by simp)
      cases ws with
      | nil =>
        have h1 := splitWordsAux_word_run w.data [] [] hns
        simp only [List.append_nil] at h1
        rw [show (joinSp [w]).data = w.data from rfl, h1, splitWordsAux,
          if_neg (by simpa [List.isEmpty_iff] using hne)]
        simp
      | cons v vs =>
        have hdata : (joinSp (w :: v :: vs)).data
            = w.data ++ (' ' :: (joinSp (v :: vs)).data) := by
          rw [joinSp_cons_cons]
          simp [String.data_append]
        have h1 := splitWordsAux_word_run w.data
          (' ' :: (joinSp (v :: vs)).data) [] hns
        simp only [List.append_nil] at h1
        rw [hdata, h1, splitWordsAux_space _ _ _ (by rfl),
          if_neg (by simpa [List.isEmpty_iff] using hne),
          ihw (fun r hr => hps r (by simp [hr]))]
        simp
  rw [pyWords, key parts h, List.map_map]
  have hid : (String.mk ∘ String.data) = id := funext (fun w => rfl)
  rw [hid, List.map_id]

/-! Validation aggregation lemmas -/

theorem validate_one_ok (gpt : String → Option String) (q : String)
    (es : List String) (out : List String)
    (h : (validate_one gpt q es).1 = Except.ok out) :
    out = es.filter (fun e => criticOk gpt q e) := by
  induction es generalizing out with
  | nil =>
    simp only [validate_one] at h
    cases h
    rfl
  | cons e es ih =>
    cases hc : (critic gpt q e).1 with
    | error msg =>
      simp only [validate_one, hc] at h
      exact Except.noConfusion h
    | ok b =>
      cases hr : (validate_one gpt q es).1 with
      | error m =>
        simp only [validate_one, hc, hr] at h
        exact Except.noConfusion h
      | ok l =>
        simp only [validate_one, hc, hr] at h
        cases h
        rw [List.filter_cons, ih l hr]
        have hb : criticOk gpt q e = b := by simp [criticOk, hc]
        rw [hb]

theorem validate_evolved_ok (gpt : String → Option String)
    (pairs : List (String × List String)) (out : List String)
    (h : (validate_evolved_questions gpt pairs).1 = Except.ok out) :
    out = (pairs.map (fun p => p.2.filter (fun e => criticOk gpt p.1 e))).flatten := by
  induction pairs generalizing out with
  | nil =>
    simp only [validate_evolved_questions] at h
    cases h
    rfl
  | cons p ps ih =>
    obtain ⟨q, es⟩ := p
    cases hv : (validate_one gpt q es).1 with
    | error m =>
      simp only [validate_evolved_questions, hv] at h
      exact Except.noConfusion h
    | ok acc =>
      cases hr : (validate_evolved_questions gpt ps).1 with
      | error m =>
        simp only [validate_evolved_questions, hv, hr] at h
        exact Except.noConfusion h
      | ok rest =>
        simp only [validate_evolved_questions, hv, hr] at h
        cases h
        rw [List.map_cons, List.flatten_cons, validate_one_ok gpt q es acc hv,
          ih rest hr]

/-! Further shared helper lemmas -/

theorem chunk_document_pos (doc : String) (W : Int) (hW : 0 < W) :
    chunk_document doc W
      = Except.ok ((chunksOf W.toNat (pyWords doc)).map joinSp) := by
  rw [chunk_document, if_neg (by omega), if_neg (by omega)]

theorem generate_evolved_eq (gpt : String → Option String) (qs : List String) :
    (generate_evolved_questions gpt qs).1
      = qs.map (fun q => (q, (apply_evolutions gpt q).1)) := by
  induction qs with
  | nil => rfl
  | cons q qs ih => simp [generate_evolved_questions, ih]

theorem pyAppendIf_length (r : Option String) : (pyAppendIf r).length ≤ 1 := by
  cases r with
  | none => simp [pyAppendIf]
  | some s =>
    by_cases hs : s = "" <;> simp [pyAppendIf, hs]

/-! Claim theorems -/

/-- Claim C3 (confirmed): for every document and every positive chunk size
`W`, `chunk_document` succeeds and returns segments whose space-joined
concatenation reproduces the whitespace-normalized word sequence of the
document; the number of segments is `⌈wordCount/W⌉` (stated both as
`(n + W - 1) / W` and by the two inequalities that pin the ceiling);
every segment has at most `W` words and every segment except possibly the
last has exactly `W`; an empty document yields no segments. -/
theorem C3_chunking (doc : String) (W : Int) (hW : 0 < W) :
    ∃ segs : List String, chunk_document doc W = Except.ok segs
      ∧ joinSp segs = joinSp (pyWords doc)
      ∧ segs.length = ((pyWords doc).length + W.toNat - 1) / W.toNat
      ∧ (pyWords doc).length ≤ segs.length * W.toNat
      ∧ segs.length * W.toNat < (pyWords doc).length + W.toNat
      ∧ (∀ seg ∈ segs, (pyWords seg).length ≤ W.toNat)
      ∧ (∀ (i : Nat) (h : i < segs.length), i + 1 < segs.length →
          (pyWords (segs.get ⟨i, h⟩)).length = W.toNat)
      ∧ (pyWords doc = [] → segs = []) := by
  have hWN : 0 < W.toNat := by omega
  refine ⟨(chunksOf W.toNat (pyWords doc)).map joinSp,
    chunk_document_pos doc W hW, ?_, ?_, ?_, ?_, ?_, ?_, ?_⟩
  · rw [joinSp_map_flatten _ (fun p hp => chunksOf_mem_ne_nil _ _ hWN p hp),
      chunksOf_flatten _ _ hWN]
  · rw [List.length_map, chunksOf_length]
  · rw [List.length_map, chunksOf_length]
    exact le_ceil_mul _ _ hWN
  · rw [List.length_map, chunksOf_length]
    have := Nat.div_mul_le_self ((pyWords doc).length + W.toNat - 1) W.toNat
    omega
  · intro seg hseg
    rw [List.mem_map] at hseg
    obtain ⟨p, hp, rfl⟩ := hseg
    rw [pyWords_joinSp p
      (fun w hw => pyWords_sound doc w (chunksOf_mem_subset _ _ p hp w hw))]
    exact chunksOf_mem_size _ _ p hp
  · intro i h h2
    rw [List.length_map] at h h2
    rw [List.get_eq_getElem, List.getElem_map]
    rw [pyWords_joinSp _
      (fun w hw => pyWords_sound doc w
        (chunksOf_mem_subset _ _ _ (List.getElem_mem h) w hw))]
    exact chunksOf_full_size _ _ hWN i h h2
  · intro hnil
    rw [hnil, chunksOf_nil, List.map_nil]

/-- Witness for claim C3: the theorem applied at document `"a bb ccc"`
(three words) and chunk size 2, which chunks as `["a bb", "ccc"]`. -/
theorem C3_chunking_witness :
    chunk_document "a bb ccc" 2 = Except.ok ["a bb", "ccc"]
    ∧ joinSp ["a bb", "ccc"] = joinSp (pyWords "a bb ccc") := by
  refine ⟨by decide, ?_⟩
  obtain ⟨segs, h1, h2, _⟩ := C3_chunking "a bb ccc" 2 (by decide)
  rw [show chunk_document "a bb ccc" 2 = Except.ok ["a bb", "ccc"] by decide] at h1
  cases h1
  exact h2

/-- Claim C1, counterexample: the claim asserts the judge returns false for
the port response `"valid"`, but the code computes
`"valid".strip().upper() == "VALID"`, which is true, so the response
`"valid"` is accepted. -/
theorem C1_counterexample :
    (critic (fun _ => some "valid") "Q" "E").1 = Except.ok true := by decide

/-- Claim C1 (corrected): the critic returns true iff the response is a
string whose trimmed, upper-cased form equals `"VALID"` — hence the
responses `"valid"` and `"Valid "` are accepted, while `"INVALID"`, `""`
and `"yes"` are rejected — and a `None` response makes `critic` raise
`AttributeError` (it does not return false). -/
theorem C1_critic_fail_closed (gpt : String → Option String) (o e : String) :
    (∀ s, gpt (critic_prompt o e) = some s →
      ((critic gpt o e).1 = Except.ok true ↔ pyUpper (pyStrip s) = "VALID"))
    ∧ (gpt (critic_prompt o e) = none →
      (critic gpt o e).1
        = Except.error "AttributeError: NoneType has no attribute strip")
    ∧ (critic (fun _ => some "valid") o e).1 = Except.ok true
    ∧ (critic (fun _ => some "Valid ") o e).1 = Except.ok true
    ∧ (critic (fun _ => some "INVALID") o e).1 = Except.ok false
    ∧ (critic (fun _ => some "") o e).1 = Except.ok false
    ∧ (critic (fun _ => some "yes") o e).1 = Except.ok false := by
  refine ⟨?_, ?_, by simp [critic]; decide, by simp [critic]; decide,
    by simp [critic]; decide, by simp [critic]; decide, by simp [critic]; decide⟩
  · intro s hs
    simp [critic, hs]
  · intro hs
    simp [critic, hs]

/-- Witness for claim C1: the corrected theorem applied at a port answering
`" VALID "` (accepted after trimming) and at a port answering `None`
(raises). -/
theorem C1_critic_fail_closed_witness :
    ((critic (fun _ => some " VALID ") "Q" "E").1 = Except.ok true ↔
      pyUpper (pyStrip " VALID ") = "VALID")
    ∧ (critic (fun _ => none) "Q" "E").1
        = Except.error "AttributeError: NoneType has no attribute strip" :=
  ⟨(C1_critic_fail_closed (fun _ => some " VALID ") "Q" "E").1 " VALID " rfl,
   (C1_critic_fail_closed (fun _ => none) "Q" "E").2.1 rfl⟩

/-- Claim C2 (code bug): the spec requires every stage to absorb a port
failure as an absence and never let an exception cross a component
boundary.  Question synthesis and evolution do absorb `None` (second and
third conjuncts), but the criticism stage does not: `critic` calls
`result.strip()` without a `None` guard — against the guard pattern used
at every other call site — so a port failure there raises
`AttributeError`, which propagates out of `validate_evolved_questions`
(first conjunct). -/
theorem C2_critic_raises :
    (validate_evolved_questions (fun _ => none) [("Q", ["E"])]).1
      = Except.error "AttributeError: NoneType has no attribute strip"
    ∧ (generate_simple_questions (fun _ => none) ["chunk"]).1 = []
    ∧ (apply_evolutions (fun _ => none) "Q").1 = [] := by decide

/-- Claim C4, counterexample: the claim asserts every non-positive chunk
size raises before any port call and aborts the run, but with chunk size
`-1` the pipeline completes without an error (Python's `range` with a
negative step over a non-negative span is simply empty). -/
theorem C4_counterexample :
    (run_pipeline (fun _ => some "x") "Alpha beta" (-1)).1 = Except.ok [] := by
  decide

/-- Claim C4 (corrected): chunk size 0 raises (`range` raises `ValueError`)
with zero port invocations (empty call trace) and the error propagates,
aborting the run; a negative chunk size, however, does not raise — it
yields zero segments, zero port invocations and an empty accepted set. -/
theorem C4_invalid_configuration (gpt : String → Option String) (doc : String) :
    run_pipeline gpt doc 0
      = (Except.error "ValueError: range() arg 3 must not be zero", [])
    ∧ ∀ k : Int, k < 0 → run_pipeline gpt doc k = (Except.ok [], []) := by
  constructor
  · rfl
  · intro k hk
    have hchunk : chunk_document doc k = Except.ok [] := by
      rw [chunk_document, if_neg (by omega), if_pos hk]
    simp [run_pipeline, hchunk, generate_simple_questions,
      generate_evolved_questions, validate_evolved_questions]

/-- Witness for claim C4: the corrected theorem applied at chunk size `-2`. -/
theorem C4_invalid_configuration_witness :
    run_pipeline (fun _ => some "x") "Alpha beta" (-2) = (Except.ok [], []) :=
  (C4_invalid_configuration (fun _ => some "x") "Alpha beta").2 (-2) (by decide)

/-- Claim C5 (confirmed): with the fixture port, document
`"Alpha beta gamma delta"` and chunk size 2 produce exactly the segments
`"Alpha beta"` and `"gamma delta"`, and the pipeline's accepted set is
`["Co1?", "R1?", "Co2?", "R2?"]` in that order. -/
theorem C5_end_to_end :
    chunk_document "Alpha beta gamma delta" 2
      = Except.ok ["Alpha beta", "gamma delta"]
    ∧ (run_pipeline fixturePort "Alpha beta gamma delta" 2).1
        = Except.ok ["Co1?", "R1?", "Co2?", "R2?"] := by decide

/-- Claim C6 (confirmed): for every baseline question, `apply_evolutions`
sends exactly one prompt per policy, in the fixed order Complexity,
Compression, Rephrase (first conjunct: the call trace); the candidate
list decomposes into the three slots, each depending only on its own
policy's call, so one policy's failure cannot block the others (second
conjunct); and at most 3 candidates are produced (third conjunct). -/
theorem C6_evolution_engine (gpt : String → Option String) (q : String) :
    (apply_evolutions gpt q).2
      = [complexity_prompt q, compression_prompt q, rephrasing_prompt q]
    ∧ (apply_evolutions gpt q).1
        = pyAppendIf (gpt (complexity_prompt q))
            ++ pyAppendIf (gpt (compression_prompt q))
            ++ pyAppendIf (gpt (rephrasing_prompt q))
    ∧ (apply_evolutions gpt q).1.length ≤ 3 := by
  refine ⟨rfl, rfl, ?_⟩
  have l1 := pyAppendIf_length (gpt (complexity_prompt q))
  have l2 := pyAppendIf_length (gpt (compression_prompt q))
  have l3 := pyAppendIf_length (gpt (rephrasing_prompt q))
  simp only [apply_evolutions, List.length_append]
  omega

/-- Claim C7 (confirmed): whenever validation completes without an
exception, the accepted set is exactly the flattened, order-preserving
concatenation — baseline order first, then the fixed policy order within
each baseline — of the candidates with a true verdict: each output entry
is the filter-image of exactly one (baseline, policy-slot) candidate with
a recorded true verdict, so there are no orphans and no duplicates. -/
theorem C7_accepted_set (gpt : String → Option String) (questions : List String)
    (out : List String)
    (h : (validate_evolved_questions gpt
        (generate_evolved_questions gpt questions).1).1 = Except.ok out) :
    out = (questions.map (fun q =>
        ((apply_evolutions gpt q).1).filter (fun e => criticOk gpt q e))).flatten := by
  rw [generate_evolved_eq] at h
  rw [validate_evolved_ok gpt _ out h, List.map_map]
  rfl

/-- Witness for claim C7: the theorem applied to the fixture scenario's
baselines `["Q1?", "Q2?"]`. -/
theorem C7_accepted_set_witness :
    (["Co1?", "R1?", "Co2?", "R2?"] : List String)
      = ((["Q1?", "Q2?"] : List String).map (fun q =>
          ((apply_evolutions fixturePort q).1).filter
            (fun e => criticOk fixturePort q e))).flatten :=
  C7_accepted_set fixturePort ["Q1?", "Q2?"] ["Co1?", "R1?", "Co2?", "R2?"]
    (by decide)

/-- Claim C8 (confirmed): `generate_evolved_questions` returns exactly one
`(question, evolutions)` pair per input question, in input order, the
first component being the input question itself (first two conjuncts);
in particular a baseline whose three evolution calls all fail is kept,
paired with an empty evolutions list (third conjunct, with the
always-failing port). -/
theorem C8_pairs_preserved (gpt : String → Option String) (qs : List String) :
    (generate_evolved_questions gpt qs).1
      = qs.map (fun q => (q, (apply_evolutions gpt q).1))
    ∧ ((generate_evolved_questions gpt qs).1).map Prod.fst = qs
    ∧ (generate_evolved_questions (fun _ => none) qs).1
        = qs.map (fun q => (q, [])) := by
  refine ⟨generate_evolved_eq gpt qs, ?_, ?_⟩
  · rw [generate_evolved_eq, List.map_map]
    exact List.map_id qs
  · rw [generate_evolved_eq]
    simp [apply_evolutions, pyAppendIf]

/-- Claim C9 (confirmed): if the port answers a non-empty whitespace-only
string for a segment, `generate_simple_questions` appends the empty
string as that segment's baseline question instead of dropping the
segment: the truthiness check runs before `strip()`. -/
theorem C9_whitespace_question (gpt : String → Option String) (c : String)
    (cs : List String) (s : String) (h : gpt (simple_prompt c) = some s)
    (hne : s ≠ "") (hws : pyStrip s = "") :
    (generate_simple_questions gpt (c :: cs)).1
      = "" :: (generate_simple_questions gpt cs).1 := by
  simp [generate_simple_questions, h, pyAppendIf, hne, hws]

/-- Witness for claim C9: the theorem applied at the response `"  "`. -/
theorem C9_whitespace_question_witness :
    (generate_simple_questions (fun _ => some "  ") ["x"]).1 = [""] :=
  C9_whitespace_question (fun _ => some "  ") "x" [] "  " rfl (by decide)
    (by decide)

/-- Claim C10 (confirmed): for every document and every negative chunk
size, `chunk_document` returns the empty list of segments and raises no
exception (Python's `range(0, n, k)` with `k < 0` and `n ≥ 0` is empty). -/
theorem C10_negative_chunk_size (doc : String) (k : Int) (h : k < 0) :
    chunk_document doc k = Except.ok [] := by
  rw [chunk_document, if_neg (by omega), if_pos h]

/-- Witness for claim C10: the theorem applied at chunk size `-3`. -/
theorem C10_negative_chunk_size_witness :
    chunk_document "Alpha beta gamma delta" (-3) = Except.ok [] :=
  C10_negative_chunk_size "Alpha beta gamma delta" (-3) (by decide)

end SDG
